import Mathlib

/-!
Shallow embedding of the gspay-go-sdk authentication subsystem:
the signature primitives (src/internal/signature/signature.go),
the endpoint sanitizer (src/internal/sanitize/sanitize.go and its
scan-based variant), and the callback IP allow-list
(src/client/option.go, VerifyCallbackIP).

Go byte strings are modelled as `List Nat` (each entry a byte value);
Go `time.Duration` is modelled as `Int` (nanoseconds).
-/

set_option maxRecDepth 8192

namespace GSPay

/-! ## crypto/md5: the default digest used by GenerateWithDigest.
Modelled from the MD5 specification implemented by Go's crypto/md5:
32-bit words are `Nat` reduced mod 2^32. -/

/-- Reduce to a 32-bit word. -/
def w32 (n : Nat) : Nat := n % 4294967296

/-- Rotate a 32-bit word left by s bits. -/
def rotl32 (x s : Nat) : Nat := w32 (x <<< s) ||| (x >>> (32 - s))

/-- Bitwise complement on 32-bit words. -/
def not32 (x : Nat) : Nat := 4294967295 ^^^ x

/-- MD5 round function F (rounds 0..15). -/
def md5F (b c d : Nat) : Nat := (b &&& c) ||| (not32 b &&& d)

/-- MD5 round function G (rounds 16..31). -/
def md5G (b c d : Nat) : Nat := (d &&& b) ||| (not32 d &&& c)

/-- MD5 round function H (rounds 32..47). -/
def md5H (b c d : Nat) : Nat := b ^^^ c ^^^ d

/-- MD5 round function I (rounds 48..63). -/
def md5I (b c d : Nat) : Nat := c ^^^ (b ||| not32 d)

/-- MD5 sine-derived constant table K. -/
def md5K : List Nat :=
  [3614090360, 3905402710, 606105819, 3250441966, 4118548399, 1200080426, 2821735955, 4249261313,
   1770035416, 2336552879, 4294925233, 2304563134, 1804603682, 4254626195, 2792965006, 1236535329,
   4129170786, 3225465664, 643717713, 3921069994, 3593408605, 38016083, 3634488961, 3889429448,
   568446438, 3275163606, 4107603335, 1163531501, 2850285829, 4243563512, 1735328473, 2368359562,
   4294588738, 2272392833, 1839030562, 4259657740, 2763975236, 1272893353, 4139469664, 3200236656,
   681279174, 3936430074, 3572445317, 76029189, 3654602809, 3873151461, 530742520, 3299628645,
   4096336452, 1126891415, 2878612391, 4237533241, 1700485571, 2399980690, 4293915773, 2240044497,
   1873313359, 4264355552, 2734768916, 1309151649, 4149444226, 3174756917, 718787259, 3951481745]

/-- MD5 per-round left-rotation amounts. -/
def md5S : List Nat :=
  [7, 12, 17, 22, 7, 12, 17, 22, 7, 12, 17, 22, 7, 12, 17, 22,
   5, 9, 14, 20, 5, 9, 14, 20, 5, 9, 14, 20, 5, 9, 14, 20,
   4, 11, 16, 23, 4, 11, 16, 23, 4, 11, 16, 23, 4, 11, 16, 23,
   6, 10, 15, 21, 6, 10, 15, 21, 6, 10, 15, 21, 6, 10, 15, 21]

/-- Running state of the MD5 compression function. -/
structure MD5State where
  a : Nat
  b : Nat
  c : Nat
  d : Nat
deriving Repr, DecidableEq

/-- MD5 initial state. -/
def md5Init : MD5State := ⟨0x67452301, 0xefcdab89, 0x98badcfe, 0x10325476⟩

/-- Decode four bytes as a little-endian 32-bit word. -/
def leWord (bs : List Nat) : Nat := bs.foldr (fun b acc => b + 256 * acc) 0

/-- Split a 64-byte chunk into sixteen little-endian words. -/
def md5Words (chunk : List Nat) : List Nat :=
  (List.range 16).map (fun i => leWord ((chunk.drop (4 * i)).take 4))

/-- One of the 64 MD5 rounds on message words M. -/
def md5Round (M : List Nat) (st : MD5State) (i : Nat) : MD5State :=
  let f :=
    if i < 16 then md5F st.b st.c st.d
    else if i < 32 then md5G st.b st.c st.d
    else if i < 48 then md5H st.b st.c st.d
    else md5I st.b st.c st.d
  let g :=
    if i < 16 then i
    else if i < 32 then (5 * i + 1) % 16
    else if i < 48 then (3 * i + 5) % 16
    else (7 * i) % 16
  let t := w32 (f + st.a + md5K.getD i 0 + M.getD g 0)
  ⟨st.d, w32 (st.b + rotl32 t (md5S.getD i 0)), st.b, st.c⟩

/-- MD5 compression of one 64-byte chunk. -/
def md5Chunk (st : MD5State) (chunk : List Nat) : MD5State :=
  let M := md5Words chunk
  let e := (List.range 64).foldl (md5Round M) st
  ⟨w32 (st.a + e.a), w32 (st.b + e.b), w32 (st.c + e.c), w32 (st.d + e.d)⟩

/-- Encode a Nat as n little-endian bytes. -/
def leBytes (n : Nat) : Nat → List Nat
  | 0 => []
  | k + 1 => n % 256 :: leBytes (n / 256) k

/-- MD5 padding: 0x80, zeros to 56 mod 64, then the 64-bit little-endian bit length. -/
def md5Pad (msg : List Nat) : List Nat :=
  msg ++ 128 :: List.replicate ((119 - msg.length % 64) % 64) 0 ++ leBytes (8 * msg.length) 8

/-- Fuel-indexed worker for chunks64; the fuel bounds the number of chunks and
is always instantiated with the list length, which suffices since every
nonempty step consumes at least one element. -/
def chunks64Go : Nat → List Nat → List (List Nat)
  | 0, _ => []
  | fuel + 1, l => if l = [] then [] else l.take 64 :: chunks64Go fuel (l.drop 64)

/-- Split the padded message into 64-byte chunks. -/
def chunks64 (l : List Nat) : List (List Nat) :=
  chunks64Go l.length l

/-- The MD5 digest of a byte sequence: 16 bytes. -/
def md5 (msg : List Nat) : List Nat :=
  let fin := (chunks64 (md5Pad msg)).foldl md5Chunk md5Init
  leBytes fin.a 4 ++ leBytes fin.b 4 ++ leBytes fin.c 4 ++ leBytes fin.d 4

/-! ## encoding/hex: lowercase hex rendering (hex.EncodeToString). -/

/-- The byte values of the Go hextable string 0123456789abcdef. -/
def hextable : List Nat :=
  [48, 49, 50, 51, 52, 53, 54, 55, 56, 57, 97, 98, 99, 100, 101, 102]

/-- Encode bytes as lowercase hex: each byte v becomes hextable v>>4, hextable v&0x0f. -/
def hexEncode (bs : List Nat) : List Nat :=
  bs.flatMap (fun v => [hextable.getD (v / 16) 0, hextable.getD (v % 16) 0])

/-! ## src/internal/signature/signature.go -/

/-- A digest function: Go hash.Hash made pure, mapping the written bytes to the
final Sum. `Option` models the nil function value. -/
def Digest : Type := List Nat → List Nat

/-- GenerateWithDigest creates a signature using the specified digest function;
if digest is nil, MD5 is used as the default (signature.go lines 36-46). -/
def GenerateWithDigest (data : List Nat) (digest : Option Digest) : List Nat :=
  match digest with
  | none => hexEncode (md5 data)
  | some d => hexEncode (d data)

/-- The loop of crypto/subtle.ConstantTimeCompare: v accumulates the OR of the
bytewise XORs over the whole length. -/
def ctcLoop : List Nat → List Nat → Nat → Nat
  | a :: x, b :: y, v => ctcLoop x y (v ||| (a ^^^ b))
  | _, _, v => v

/-- crypto/subtle.ConstantTimeCompare: 0 when lengths differ, else 1 iff the
accumulated OR of xors is zero. -/
def constantTimeCompare (x y : List Nat) : Nat :=
  if x.length ≠ y.length then 0
  else if ctcLoop x y 0 = 0 then 1 else 0

/-- Verify checks if the provided signature matches the expected signature
(signature.go lines 50-52). -/
def Verify (expected actual : List Nat) : Bool :=
  constantTimeCompare expected actual == 1

/-- Loop-iteration count of the ConstantTimeCompare byte loop: one step per
byte position examined. -/
def ctcLoopSteps : List Nat → List Nat → Nat
  | _ :: x, _ :: y => ctcLoopSteps x y + 1
  | _, _ => 0

/-- Byte positions examined by Verify: zero when the length check fails,
otherwise the full loop. -/
def verifySteps (x y : List Nat) : Nat :=
  if x.length ≠ y.length then 0 else ctcLoopSteps x y

/-! ## Lemmas about the signature primitives -/

theorem nat_lor_eq_zero_iff (m n : Nat) : m ||| n = 0 ↔ m = 0 ∧ n = 0 := by
  constructor
  · intro h
    have hb : ∀ i, (m ||| n).testBit i = false := by simp [h]
    refine ⟨Nat.eq_of_testBit_eq fun i => ?_, Nat.eq_of_testBit_eq fun i => ?_⟩ <;>
      have hi := hb i <;> simp [Nat.testBit_lor] at hi <;> simp [hi]
  · rintro ⟨rfl, rfl⟩; rfl

theorem ctcLoop_eq_zero_iff :
    ∀ (x y : List Nat) (v : Nat), x.length = y.length →
      (ctcLoop x y v = 0 ↔ v = 0 ∧ x = y) := by
  intro x
  induction x with
  | nil =>
    intro y v h
    cases y with
    | nil => simp [ctcLoop]
    | cons b ys => simp at h
  | cons a xs ih =>
    intro y v h
    cases y with
    | nil => simp at h
    | cons b ys =>
      simp only [List.length_cons, Nat.add_right_cancel_iff] at h
      rw [ctcLoop, ih ys _ h, nat_lor_eq_zero_iff, Nat.xor_eq_zero]
      constructor
      · rintro ⟨⟨hv, rfl⟩, rfl⟩; exact ⟨hv, rfl⟩
      · rintro ⟨hv, he⟩
        cases he
        exact ⟨⟨hv, rfl⟩, rfl⟩

theorem verify_eq_true_iff (expected actual : List Nat) :
    Verify expected actual = true ↔ expected = actual := by
  unfold Verify constantTimeCompare
  by_cases h : expected.length = actual.length
  · rw [if_neg (by simp [h])]
    by_cases hz : ctcLoop expected actual 0 = 0
    · rw [if_pos hz]
      have he := ((ctcLoop_eq_zero_iff expected actual 0 h).mp hz).2
      simp [he]
    · rw [if_neg hz]
      constructor
      · intro hc; simp at hc
      · intro he
        exact absurd ((ctcLoop_eq_zero_iff expected actual 0 h).mpr ⟨rfl, he⟩) hz
  · rw [if_pos (by simp [h])]
    constructor
    · intro hc; simp at hc
    · intro he; exact absurd (congrArg List.length he) h

theorem ctcLoopSteps_full :
    ∀ (x y : List Nat), x.length = y.length → ctcLoopSteps x y = x.length := by
  intro x
  induction x with
  | nil => intro y h; cases y <;> simp_all [ctcLoopSteps]
  | cons a xs ih =>
    intro y h
    cases y with
    | nil => simp at h
    | cons b ys =>
      simp only [List.length_cons, Nat.add_right_cancel_iff] at h
      simp [ctcLoopSteps, ih ys h]

theorem leBytes_length_zero_aux : ∀ k, (leBytes 0 k).length = k := by
  intro k
  induction k with
  | zero => rfl
  | succ j ihj => rw [leBytes]; simp [ihj]

theorem leBytes_mem_lt_zero_aux : ∀ k, ∀ b ∈ leBytes 0 k, b < 256 := by
  intro k
  induction k with
  | zero => intro b hb; simp [leBytes] at hb
  | succ j ihj =>
    intro b hb
    rw [leBytes] at hb
    rcases List.mem_cons.mp hb with h1 | h2
    · subst h1; decide
    · exact ihj b (by simpa using h2)

theorem leBytes_length (n : Nat) : ∀ k, (leBytes n k).length = k := by
  induction n using Nat.strong_induction_on with
  | _ n ih =>
    intro k
    cases k with
    | zero => rfl
    | succ j =>
      cases n with
      | zero => simp [leBytes, leBytes_length_zero_aux j]
      | succ m =>
        rw [leBytes]
        simp only [List.length_cons]
        rw [ih ((m + 1) / 256) (Nat.div_lt_self (Nat.succ_pos m) (by decide)) j]


theorem md5_length (msg : List Nat) : (md5 msg).length = 16 := by
  unfold md5
  simp [leBytes_length]

theorem leBytes_mem_lt (n : Nat) : ∀ k, ∀ b ∈ leBytes n k, b < 256 := by
  induction n using Nat.strong_induction_on with
  | _ n ih =>
    intro k
    cases k with
    | zero => intro b hb; simp [leBytes] at hb
    | succ j =>
      intro b hb
      rw [leBytes] at hb
      rcases List.mem_cons.mp hb with h1 | h2
      · subst h1; exact Nat.mod_lt _ (by decide)
      · cases n with
        | zero =>
          exact leBytes_mem_lt_zero_aux j b (by simpa using h2)
        | succ m =>
          exact ih ((m + 1) / 256) (Nat.div_lt_self (Nat.succ_pos m) (by decide)) j b h2


theorem md5_mem_lt (msg : List Nat) : ∀ b ∈ md5 msg, b < 256 := by
  unfold md5
  intro b hb
  simp only [List.append_assoc, List.mem_append] at hb
  rcases hb with h | h | h | h <;> exact leBytes_mem_lt _ 4 b h

theorem hextable_getD_mem (i : Nat) (h : i < 16) : hextable.getD i 0 ∈ hextable := by
  interval_cases i <;> decide

theorem hexEncode_mem (bs : List Nat) (hbs : ∀ b ∈ bs, b < 256) :
    ∀ c ∈ hexEncode bs, c ∈ hextable := by
  intro c hc
  rcases List.mem_flatMap.mp hc with ⟨b, hb, hcb⟩
  have hb256 := hbs b hb
  rcases List.mem_cons.mp hcb with h1 | h2
  · subst h1
    exact hextable_getD_mem _ ((Nat.div_lt_iff_lt_mul (by decide)).mpr hb256)
  · have : c = hextable.getD (b % 16) 0 := by simpa using h2
    subst this
    exact hextable_getD_mem _ (Nat.mod_lt _ (by decide))

theorem hexEncode_length (bs : List Nat) : (hexEncode bs).length = 2 * bs.length := by
  induction bs with
  | nil => rfl
  | cons b l ih =>
    show (hexEncode (b :: l)).length = 2 * (b :: l).length
    rw [hexEncode, List.flatMap_cons, List.length_append]
    have hfm :
        l.flatMap (fun v => [hextable.getD (v / 16) 0, hextable.getD (v % 16) 0]) =
          hexEncode l := rfl
    rw [hfm, ih]
    simp only [List.length_cons, List.length_nil]
    omega

/-! ## Claim theorems for the signature primitives -/

/-- C1: for all strings expected and actual, Verify(expected, actual) returns
true iff the two are byte-for-byte equal; any mismatch (including different
lengths) yields the boolean false, and Verify of two empty strings is true. -/
theorem claim_C1_verify_iff_eq (expected actual : List Nat) :
    (Verify expected actual = true ↔ expected = actual) ∧
    Verify ([] : List Nat) ([] : List Nat) = true :=
  ⟨verify_eq_true_iff expected actual, by decide⟩

/-- C2: for every message m and digest function d (including the unset/nil
digest), GenerateWithDigest is deterministic, and Verify of the signature
against itself is true. -/
theorem claim_C2_generate_deterministic (m : List Nat) (d : Option Digest) :
    GenerateWithDigest m d = GenerateWithDigest m d ∧
    Verify (GenerateWithDigest m d) (GenerateWithDigest m d) = true :=
  ⟨rfl, (verify_eq_true_iff _ _).mpr rfl⟩

/-- C3: GenerateWithDigest(m, nil) is the MD5 digest of m rendered as a
32-character lowercase hexadecimal string (16 digest bytes, i.e. 128 bits),
and the empty message yields the MD5 of the empty byte sequence
(d41d8cd98f00b204e9800998ecf8427e). -/
theorem claim_C3_generate_default_md5 (m : List Nat) :
    GenerateWithDigest m none = hexEncode (md5 m) ∧
    (md5 m).length = 16 ∧
    (GenerateWithDigest m none).length = 32 ∧
    (∀ c ∈ GenerateWithDigest m none, c ∈ hextable) ∧
    GenerateWithDigest [] none =
      [100, 52, 49, 100, 56, 99, 100, 57, 56, 102, 48, 48, 98, 50, 48, 52,
       101, 57, 56, 48, 48, 57, 57, 56, 101, 99, 102, 56, 52, 50, 55, 101] := by
  refine ⟨rfl, md5_length m, ?_, ?_, ?_⟩
  · show (hexEncode (md5 m)).length = 32
    rw [hexEncode_length, md5_length]
  · exact hexEncode_mem _ (md5_mem_lt m)
  · rfl

/-- C4: Verify examines the full length of both operands with no early exit on
the first differing byte: for equal-length inputs the comparison loop always
runs exactly the full length, so its step count is independent of where the
operands first differ. -/
theorem claim_C4_verify_full_scan (x y : List Nat) (h : x.length = y.length) :
    verifySteps x y = x.length := by
  unfold verifySteps
  rw [if_neg (by simp [h])]
  exact ctcLoopSteps_full x y h

/-- Witness for C4: two equal-length operands differing at the second byte are
scanned over the full length 3. -/
theorem claim_C4_witness :
    ([10, 20, 30] : List Nat).length = ([10, 99, 30] : List Nat).length ∧
    verifySteps [10, 20, 30] [10, 99, 30] = ([10, 20, 30] : List Nat).length :=
  ⟨by decide, claim_C4_verify_full_scan [10, 20, 30] [10, 99, 30] (by decide)⟩

/-! ## src/internal/sanitize/sanitize.go: the endpoint sanitizer.
Go strings are modelled as `List Char`; strings.Split(s, "/") and
strings.Join(parts, "/") are modelled by splitSlash and joinSlash. -/

/-- strings.Split on a one-byte separator. -/
def splitSep (sep : Char) : List Char → List (List Char)
  | [] => [[]]
  | c :: rest =>
    let ps := splitSep sep rest
    if c = sep then [] :: ps else (c :: ps.headD []) :: ps.tail

/-- strings.Split on the one-byte separator slash. -/
def splitSlash : List Char → List (List Char) := splitSep '/'

/-- strings.Join with the one-byte separator slash. -/
def joinSlash : List (List Char) → List Char
  | [] => []
  | [p] => p
  | p :: ps => p ++ '/' :: joinSlash ps

/-- The position-based Endpoint sanitizer (src/internal/sanitize/sanitize.go
lines 31-47): redacts segment 4 only when segment 1 is v2, segment 2 is
integrations, segment 3 is operator or operators, and segment 4 is nonempty. -/
def EndpointPos (endpoint : List Char) : List Char :=
  let parts := splitSlash endpoint
  if parts.length ≥ 5 ∧ parts.getD 1 [] = "v2".toList ∧
      parts.getD 2 [] = "integrations".toList ∧ 0 < (parts.getD 4 []).length then
    if parts.getD 3 [] = "operator".toList ∨ parts.getD 3 [] = "operators".toList then
      joinSlash (parts.set 4 "[REDACTED]".toList)
    else endpoint
  else endpoint

/-- The loop of the scan-based Endpoint sanitizer: the index of the segment to
redact, i.e. the successor of the first segment equal to operator or operators
that is followed by a nonempty segment. -/
def findRedactIdx : List (List Char) → Nat → Option Nat
  | [], _ => none
  | p :: rest, i =>
    if (p = "operator".toList ∨ p = "operators".toList) ∧ rest.length > 0 ∧
        0 < (rest.headD []).length then
      some (i + 1)
    else findRedactIdx rest (i + 1)

/-- The scan-based Endpoint sanitizer (src/unnamed/part_003 lines 34-47):
redacts the segment following the first non-final operator or operators
segment anywhere in the path. -/
def EndpointScan (endpoint : List Char) : List Char :=
  match findRedactIdx (splitSlash endpoint) 0 with
  | some j => joinSlash ((splitSlash endpoint).set j "[REDACTED]".toList)
  | none => endpoint

/-- C10 counterexample: on the path /x/operator/secret the scan-based
sanitizer redacts but the position-based one does not, so the two
implementations are not extensionally equal. -/
theorem claim_C10_counterexample :
    EndpointScan "/x/operator/secret".toList ≠ EndpointPos "/x/operator/secret".toList := by
  decide

/-- C10 (amended): on every path that starts with a slash and on which the
position-based sanitizer redacts, the scan-based sanitizer produces the
identical output; in general the two differ, since the scan-based one also
redacts paths the position-based one leaves unchanged. -/
theorem claim_C10_scan_refines_pos (s : List Char)
    (h0 : s.headD ' ' = '/') (h1 : EndpointPos s ≠ s) :
    EndpointScan s = EndpointPos s := by
  cases s with
  | nil => simp at h0
  | cons c t =>
    have hc : c = '/' := by simpa using h0
    subst hc
    have hsplit : splitSlash ('/' :: t) = [] :: splitSlash t := by simp [splitSlash, splitSep]
    by_cases hcond : (splitSlash ('/' :: t)).length ≥ 5 ∧
        (splitSlash ('/' :: t)).getD 1 [] = "v2".toList ∧
        (splitSlash ('/' :: t)).getD 2 [] = "integrations".toList ∧
        0 < ((splitSlash ('/' :: t)).getD 4 []).length
    case neg => exact absurd (by simp only [EndpointPos, if_neg hcond]) h1
    case pos =>
      by_cases hop : (splitSlash ('/' :: t)).getD 3 [] = "operator".toList ∨
          (splitSlash ('/' :: t)).getD 3 [] = "operators".toList
      case neg =>
        exact absurd (by simp only [EndpointPos, if_pos hcond, if_neg hop]) h1
      case pos =>
        have hgen : ∀ l : List (List Char), 4 ≤ l.length →
            ∃ q1 q2 q3 q4 rest, l = q1 :: q2 :: q3 :: q4 :: rest := by
          intro l hl
          rcases l with _ | ⟨a, _ | ⟨b, _ | ⟨e, _ | ⟨d, r⟩⟩⟩⟩ <;>
            simp only [List.length_nil, List.length_cons] at hl
          · omega
          · omega
          · omega
          · omega
          · exact ⟨a, b, e, d, r, rfl⟩
        obtain ⟨q1, q2, q3, q4, rest, hps⟩ :
            ∃ q1 q2 q3 q4 rest, splitSlash t = q1 :: q2 :: q3 :: q4 :: rest := by
          apply hgen
          have h5 := hcond.1
          rw [hsplit] at h5
          simpa using h5
        rw [hsplit, hps] at hcond hop
        simp only [List.getD_cons_succ, List.getD_cons_zero] at hcond hop
        obtain ⟨hlen5, hq1, hq2, hq4⟩ := hcond
        subst hq1
        subst hq2
        unfold EndpointScan EndpointPos
        rw [hsplit, hps]
        rcases hop with hq3 | hq3 <;> subst hq3 <;>
          simp [findRedactIdx, hq4, List.getD_cons_succ, List.getD_cons_zero]

/-- Witness for the amended C10: on the documented path shape both sanitizers
redact the key and agree. -/
theorem claim_C10_witness :
    "/v2/integrations/operator/key".toList.headD ' ' = '/' ∧
    EndpointPos "/v2/integrations/operator/key".toList ≠
      "/v2/integrations/operator/key".toList ∧
    EndpointScan "/v2/integrations/operator/key".toList =
      EndpointPos "/v2/integrations/operator/key".toList :=
  ⟨by decide, by decide, claim_C10_scan_refines_pos _ (by decide) (by decide)⟩

/-! ## Model of Go net address parsing, the dependency of the callback IP
allow-list (src/client/option.go and VerifyCallbackIP). IP addresses are
byte lists of length 4 or 16, mirroring net.IP slices. -/

/-- Value of a hex digit, or none. -/
def hexDigitVal (c : Char) : Option Nat :=
  if '0' ≤ c ∧ c ≤ '9' then some (c.toNat - 48)
  else if 'a' ≤ c ∧ c ≤ 'f' then some (c.toNat - 87)
  else if 'A' ≤ c ∧ c ≤ 'F' then some (c.toNat - 55)
  else none

/-- Whether a character is a decimal digit. -/
def isDigitCh (c : Char) : Bool := '0' ≤ c ∧ c ≤ '9'

/-- Decimal value of a digit string, most significant first. -/
def decVal (f : List Char) : Nat := f.foldl (fun n c => n * 10 + (c.toNat - 48)) 0

/-- Go net dtoi: parse a decimal prefix; returns (value, chars consumed, ok),
failing when the value reaches the big cutoff 0xFFFFFF or no digit was read. -/
def dtoiGo : List Char → Nat → Nat → Nat × Nat × Bool
  | [], n, i => if i = 0 then (0, 0, false) else (n, i, true)
  | c :: rest, n, i =>
    if isDigitCh c then
      let n2 := n * 10 + (c.toNat - 48)
      if n2 ≥ 0xFFFFFF then (0xFFFFFF, i, false) else dtoiGo rest n2 (i + 1)
    else if i = 0 then (0, 0, false) else (n, i, true)

/-- Go net dtoi entry point. -/
def dtoi (s : List Char) : Nat × Nat × Bool := dtoiGo s 0 0

/-- One dotted-decimal IPv4 field: nonempty, all digits, no leading zero,
value at most 255 (netip parseIPv4Fields). -/
def ipv4FieldVal (f : List Char) : Option Nat :=
  if f ≠ [] ∧ f.all isDigitCh ∧ (f.length ≤ 1 ∨ f.headD '0' ≠ '0') ∧ decVal f ≤ 255 then
    some (decVal f)
  else none

/-- netip parseIPv4: exactly four valid dotted-decimal fields; yields the
4-byte address. -/
def parseIPv4 (s : List Char) : Option (List Nat) :=
  match splitSep '.' s with
  | [f0, f1, f2, f3] =>
    match ipv4FieldVal f0, ipv4FieldVal f1, ipv4FieldVal f2, ipv4FieldVal f3 with
    | some a, some b, some c, some d => some [a, b, c, d]
    | _, _, _, _ => none
  | _ => none

/-- Scan a maximal hex-digit prefix: accumulated value, digit count, rest. -/
def takeHexGo : List Char → Nat → Nat → Nat × Nat × List Char
  | [], acc, cnt => (acc, cnt, [])
  | c :: rest, acc, cnt =>
    match hexDigitVal c with
    | some d => takeHexGo rest (acc * 16 + d) (cnt + 1)
    | none => (acc, cnt, c :: rest)

/-- Expansion step after the netip parseIPv6 loop: pad with zeros at the
ellipsis when fewer than 16 bytes were produced; reject a redundant ellipsis. -/
def v6Finish (bytes : List Nat) (ell : Option Nat) : Option (List Nat) :=
  if bytes.length < 16 then
    match ell with
    | none => none
    | some e => some (bytes.take e ++ List.replicate (16 - bytes.length) 0 ++ bytes.drop e)
  else
    match ell with
    | some _ => none
    | none => some bytes

/-- The netip parseIPv6 field loop. Each recursive step appends exactly two
bytes and recursion stops once 16 bytes are collected, so fuel 16 is never
exhausted. -/
def v6Loop : Nat → List Char → List Nat → Option Nat → Option (List Nat)
  | 0, _, _, _ => none
  | fuel + 1, s, bytes, ell =>
    if 16 ≤ bytes.length then
      if s = [] then v6Finish bytes ell else none
    else
      match takeHexGo s 0 0 with
      | (acc, cnt, rest) =>
        if cnt = 0 then none
        else if 4 < cnt then none
        else
          match rest with
          | '.' :: _ =>
            if ell.isNone ∧ bytes.length ≠ 12 then none
            else if 16 < bytes.length + 4 then none
            else
              match parseIPv4 s with
              | some quad => v6Finish (bytes ++ quad) ell
              | none => none
          | [] => v6Finish (bytes ++ [acc / 256 % 256, acc % 256]) ell
          | ':' :: rest2 =>
            match rest2 with
            | [] => none
            | ':' :: rest3 =>
              if ell.isSome then none
              else if rest3 = [] then
                v6Finish (bytes ++ [acc / 256 % 256, acc % 256])
                  (some (bytes.length + 2))
              else
                v6Loop fuel rest3 (bytes ++ [acc / 256 % 256, acc % 256])
                  (some (bytes.length + 2))
            | _ => v6Loop fuel rest2 (bytes ++ [acc / 256 % 256, acc % 256]) ell
          | _ => none

/-- netip parseIPv6 without zone support: any percent sign is rejected, since
both net.ParseIP and net.ParseCIDR reject zoned addresses. Yields the 16-byte
address. -/
def parseIPv6 (s : List Char) : Option (List Nat) :=
  if s.contains '%' then none
  else
    match s with
    | ':' :: ':' :: rest =>
      if rest = [] then some (List.replicate 16 0) else v6Loop 16 rest [] (some 0)
    | _ => v6Loop 16 s [] none

/-- netip ParseAddr dispatch: the first dot, colon or percent decides the
family; yields the address slice (4 bytes for v4, 16 for v6), like AsSlice. -/
def parseAddrScan : List Char → List Char → Option (List Nat)
  | [], _ => none
  | c :: rest, s =>
    if c = '.' then parseIPv4 s
    else if c = ':' then parseIPv6 s
    else if c = '%' then none
    else parseAddrScan rest s

/-- Address slice of netip.ParseAddr on the full string. -/
def parseAddrSlice (s : List Char) : Option (List Nat) := parseAddrScan s s

/-- The v4-in-v6 prefix ::ffff:0:0/96 used by net.IP. -/
def v4inv6Pfx : List Nat := [0, 0, 0, 0, 0, 0, 0, 0, 0, 0, 255, 255]

/-- net.ParseIP: always a 16-byte representation (As16), none on failure. -/
def ParseIP (s : List Char) : Option (List Nat) :=
  match parseAddrSlice s with
  | some l => some (if l.length = 4 then v4inv6Pfx ++ l else l)
  | none => none

/-- Index of the first occurrence of a character. -/
def firstIdx (c : Char) : List Char → Option Nat
  | [] => none
  | x :: rest => if x = c then some 0 else (firstIdx c rest).map (· + 1)

/-- Index of the last occurrence of a character (net last). -/
def lastIdx (c : Char) (s : List Char) : Option Nat :=
  match firstIdx c s.reverse with
  | some j => some (s.length - 1 - j)
  | none => none

/-- net.SplitHostPort: split host:port, handling the bracketed v6 form;
none models every error return. -/
def splitHostPort (hostport : List Char) : Option (List Char × List Char) :=
  match lastIdx ':' hostport with
  | none => none
  | some i =>
    if hostport.headD ' ' = '[' then
      match firstIdx ']' hostport with
      | none => none
      | some e =>
        if e + 1 = hostport.length then none
        else if e + 1 = i then
          if (hostport.drop 1).contains '[' ∨ (hostport.drop (e + 1)).contains ']' then none
          else some ((hostport.drop 1).take (e - 1), hostport.drop (i + 1))
        else none
    else
      if (hostport.take i).contains ':' then none
      else if hostport.contains '[' ∨ hostport.contains ']' then none
      else some (hostport.take i, hostport.drop (i + 1))

/-- net.CIDRMask: a mask of ones leading one bits out of bits total. -/
def cidrMask (ones bits : Nat) : List Nat :=
  if (bits ≠ 32 ∧ bits ≠ 128) ∨ ones > bits then []
  else
    (List.range (bits / 8)).map (fun i =>
      let n := ones - 8 * i
      if 8 ≤ n then 255 else 255 ^^^ (255 >>> n))

/-- net.IP.Mask: bytewise and after reconciling 4- and 16-byte forms. -/
def ipMask (ip mask : List Nat) : List Nat :=
  let mask2 :=
    if mask.length = 16 ∧ ip.length = 4 ∧ (mask.take 12).all (· = 255) then mask.drop 12
    else mask
  let ip2 :=
    if mask2.length = 4 ∧ ip.length = 16 ∧ ip.take 12 = v4inv6Pfx then ip.drop 12
    else ip
  if ip2.length ≠ mask2.length then []
  else List.zipWith (fun a b => a &&& b) ip2 mask2

/-- net.IP.To4: the 4-byte form when the address is IPv4 or v4-in-v6. -/
def ipTo4 (ip : List Nat) : Option (List Nat) :=
  if ip.length = 4 then some ip
  else if ip.length = 16 ∧ ip.take 12 = v4inv6Pfx then some (ip.drop 12)
  else none

/-- net.IP.Equal: equality up to the v4-in-v6 embedding. -/
def ipEqual (x y : List Nat) : Bool :=
  if x.length = y.length then x == y
  else if x.length = 4 ∧ y.length = 16 then y.take 12 == v4inv6Pfx && x == y.drop 12
  else if x.length = 16 ∧ y.length = 4 then x.take 12 == v4inv6Pfx && x.drop 12 == y
  else false

/-- A parsed CIDR network: network number and mask (net.IPNet). -/
structure IPNet where
  ip : List Nat
  mask : List Nat
deriving Repr, DecidableEq

/-- net.ParseCIDR, keeping the network: address before the slash parsed as an
IP, decimal prefix length bounded by the address bit length; the network is
the masked address. -/
def parseCIDR (s : List Char) : Option IPNet :=
  match firstIdx '/' s with
  | none => none
  | some i =>
    match parseAddrSlice (s.take i) with
    | none => none
    | some ipSlice =>
      match dtoi (s.drop (i + 1)) with
      | (n, j, ok) =>
        if ¬ok ∨ j ≠ (s.drop (i + 1)).length ∨ n > 8 * ipSlice.length then none
        else
          let m := cidrMask n (8 * ipSlice.length)
          some ⟨ipMask ipSlice m, m⟩

/-- net networkNumberAndMask: canonical network number and mask of an IPNet,
none for the nil, nil outcome. -/
def networkNumberAndMask (n : IPNet) : Option (List Nat × List Nat) :=
  match if (ipTo4 n.ip).isSome then ipTo4 n.ip
        else if n.ip.length = 16 then some n.ip else none with
  | none => none
  | some ip =>
    if n.mask.length = 4 then
      if ip.length ≠ 4 then none else some (ip, n.mask)
    else if n.mask.length = 16 then
      some (ip, if ip.length = 4 then n.mask.drop 12 else n.mask)
    else none

/-- net.IPNet.Contains: masked bytewise comparison against the network. -/
def ipNetContains (n : IPNet) (x : List Nat) : Bool :=
  match (match networkNumberAndMask n with
         | some p => p
         | none => ([], [])) with
  | (nn, m) =>
    let ip := match ipTo4 x with | some y => y | none => x
    if ip.length ≠ nn.length then false
    else (List.range ip.length).all
      (fun i => nn.getD i 0 &&& m.getD i 0 == ip.getD i 0 &&& m.getD i 0)

/-! ## src/client: the Client, its options and the callback IP allow-list.
Durations are Int nanoseconds. Unmodelled fields (HTTP client, logger,
language, QR options) are omitted; no modelled option touches them. -/

/-- The GSPAY2 API client configuration state (logger.go lines 95-140,
modelled fields only). -/
structure Client where
  AuthKey : List Char
  SecretKey : List Char
  BaseURL : List Char
  Timeout : Int
  Retries : Int
  RetryWaitMin : Int
  RetryWaitMax : Int
  CallbackIPWhitelist : List (List Char)
  parsedIPNets : List IPNet
  Debug : Bool
  parsedIPs : List (List Nat)
  digest : Option Digest

/-- One iteration of the parseIPWhitelist loop (option.go lines 259-270):
try the entry as a CIDR, else as a literal IP, else drop it. -/
def whitelistStep (acc : List IPNet × List (List Nat)) (ipStr : List Char) :
    List IPNet × List (List Nat) :=
  match parseCIDR ipStr with
  | some ipNet => (acc.1 ++ [ipNet], acc.2)
  | none =>
    match ParseIP ipStr with
    | some ip => (acc.1, acc.2 ++ [ip])
    | none => acc

/-- The loop of parseIPWhitelist (option.go lines 255-271): each entry is
tried as a CIDR first, then as a literal IP; unparseable entries are dropped. -/
def parseIPWhitelistLoop (entries : List (List Char)) :
    List IPNet × List (List Nat) :=
  entries.foldl whitelistStep ([], [])

/-- parseIPWhitelist: reset and rebuild the parsed entries from the raw
whitelist strings. -/
def parseIPWhitelist (c : Client) : Client :=
  match parseIPWhitelistLoop c.CallbackIPWhitelist with
  | (nets, ips) => { c with parsedIPNets := nets, parsedIPs := ips }

/-- The port-stripping step shared by IsIPWhitelisted and VerifyCallbackIP:
the host of a successful SplitHostPort, else the input unchanged. -/
def hostOf (ipStr : List Char) : List Char :=
  match splitHostPort ipStr with
  | some p => p.1
  | none => ipStr

/-- IsIPWhitelisted (option.go lines 282-314): true when the whitelist is
empty; otherwise strip an optional port, parse, and match against the parsed
literal IPs and CIDR ranges. -/
def IsIPWhitelisted (c : Client) (ipStr : List Char) : Bool :=
  if c.CallbackIPWhitelist.length = 0 then true
  else
    match ParseIP (hostOf ipStr) with
    | none => false
    | some ip =>
      c.parsedIPs.any (fun w => ipEqual w ip) ||
        c.parsedIPNets.any (fun n => ipNetContains n ip)

/-- The sentinel error kinds VerifyCallbackIP can wrap. -/
inductive CallbackIPErr where
  | invalidIPAddress
  | ipNotWhitelisted
deriving Repr, DecidableEq

/-- VerifyCallbackIP (src/unnamed/part_009 lines 28-51): none when the
whitelist is empty or the IP is whitelisted; ErrInvalidIPAddress when the
host does not parse; ErrIPNotWhitelisted otherwise. -/
def VerifyCallbackIP (c : Client) (ipStr : List Char) : Option CallbackIPErr :=
  if c.CallbackIPWhitelist.length = 0 then none
  else if (ParseIP (hostOf ipStr)).isNone then some CallbackIPErr.invalidIPAddress
  else if ¬(IsIPWhitelisted c ipStr = true) then some CallbackIPErr.ipNotWhitelisted
  else none

/-- The functional options of the client, as a syntactic datatype so a
sequence of options can be quantified over (option.go). -/
inductive OptionSpec where
  | withBaseURL (baseURL : List Char)
  | withTimeout (timeout : Int)
  | withRetries (retries : Int)
  | withDebug (debug : Bool)
  | withRetryWait (mn mx : Int)
  | withCallbackIPWhitelist (ips : List (List Char))
  | withDigest (digest : Option Digest)

/-- strings.TrimRight(baseURL, slash). -/
def trimRightSlash (s : List Char) : List Char :=
  (s.reverse.dropWhile (fun c => c = '/')).reverse

/-- Application of one option to the client (option.go): WithTimeout ignores
values under 5s, WithRetries ignores negatives, WithRetryWait assigns both
bounds unconditionally, WithCallbackIPWhitelist stores and reparses. -/
def applyOption (c : Client) : OptionSpec → Client
  | OptionSpec.withBaseURL u => { c with BaseURL := trimRightSlash u }
  | OptionSpec.withTimeout d =>
    if 5 * 1000000000 ≤ d then { c with Timeout := d } else c
  | OptionSpec.withRetries n => if 0 ≤ n then { c with Retries := n } else c
  | OptionSpec.withDebug b => { c with Debug := b }
  | OptionSpec.withRetryWait mn mx => { c with RetryWaitMin := mn, RetryWaitMax := mx }
  | OptionSpec.withCallbackIPWhitelist ips =>
    parseIPWhitelist { c with CallbackIPWhitelist := ips }
  | OptionSpec.withDigest d => { c with digest := d }

/-- Modelled from the spec: the constants package (DefaultBaseURL,
DefaultTimeout, DefaultRetries, DefaultRetryWaitMin, DefaultRetryWaitMax) is
not under src; the values follow the defaults documented in option.go and
logger.go: 30s timeout, 3 retries, 500ms minimum and 2s maximum retry wait. -/
def defaultClient (authKey secretKey : List Char) : Client :=
  { AuthKey := authKey
    SecretKey := secretKey
    BaseURL := "https://api.thegspay.com".toList
    Timeout := 30 * 1000000000
    Retries := 3
    RetryWaitMin := 500 * 1000000
    RetryWaitMax := 2000 * 1000000
    CallbackIPWhitelist := []
    parsedIPNets := []
    Debug := false
    parsedIPs := []
    digest := none }

/-- New (logger.go lines 148-180): defaults, then the options in order. -/
def new (authKey secretKey : List Char) (opts : List OptionSpec) : Client :=
  opts.foldl applyOption (defaultClient authKey secretKey)

/-! ## Lemmas about the allow-list -/

theorem isIPWhitelisted_parse_none (c : Client) (s : List Char)
    (h : c.CallbackIPWhitelist ≠ []) (hp : ParseIP (hostOf s) = none) :
    IsIPWhitelisted c s = false := by
  unfold IsIPWhitelisted
  rw [if_neg (fun hh => h (List.length_eq_zero.mp hh)), hp]

theorem isIPWhitelisted_iff (c : Client) (s : List Char)
    (h : c.CallbackIPWhitelist ≠ []) :
    IsIPWhitelisted c s = true ↔
      ∃ ip, ParseIP (hostOf s) = some ip ∧
        ((∃ w ∈ c.parsedIPs, ipEqual w ip = true) ∨
         (∃ n ∈ c.parsedIPNets, ipNetContains n ip = true)) := by
  unfold IsIPWhitelisted
  rw [if_neg (fun hh => h (List.length_eq_zero.mp hh))]
  cases hp : ParseIP (hostOf s) with
  | none => simp
  | some ip => simp [List.any_eq_true]

theorem parseIPWhitelistLoop_go (entries : List (List Char))
    (acc : List IPNet × List (List Nat)) :
    entries.foldl whitelistStep acc =
      (acc.1 ++ entries.filterMap parseCIDR,
       acc.2 ++ entries.filterMap
         (fun s => if (parseCIDR s).isSome then none else ParseIP s)) := by
  induction entries generalizing acc with
  | nil => simp
  | cons e rest ih =>
    rw [List.foldl_cons, ih]
    cases hc : parseCIDR e with
    | some n => simp [whitelistStep, hc]
    | none =>
      cases hp : ParseIP e with
      | none => simp [whitelistStep, hc, hp]
      | some ip => simp [whitelistStep, hc, hp]

/-! ## Claim theorems for the allow-list -/

/-- C5: IsIPWhitelisted allows everything when the whitelist is empty; with a
non-empty whitelist it strips an optional port and answers exactly whether the
parsed address equals a parsed literal or lies in a parsed CIDR, false when
the host does not parse; and on whitelist 10.0.0.0/8 it allows 10.1.2.3 and
10.1.2.3:9999 but denies 11.1.2.3. -/
theorem claim_C5_is_ip_whitelisted (c : Client) (cand : List Char) :
    (c.CallbackIPWhitelist = [] → IsIPWhitelisted c cand = true) ∧
    (c.CallbackIPWhitelist ≠ [] →
      (IsIPWhitelisted c cand = true ↔
        ∃ ip, ParseIP (hostOf cand) = some ip ∧
          ((∃ w ∈ c.parsedIPs, ipEqual w ip = true) ∨
           (∃ n ∈ c.parsedIPNets, ipNetContains n ip = true)))) ∧
    (c.CallbackIPWhitelist ≠ [] → ParseIP (hostOf cand) = none →
      IsIPWhitelisted c cand = false) ∧
    IsIPWhitelisted (new [] [] [OptionSpec.withCallbackIPWhitelist ["10.0.0.0/8".toList]])
      "10.1.2.3".toList = true ∧
    IsIPWhitelisted (new [] [] [OptionSpec.withCallbackIPWhitelist ["10.0.0.0/8".toList]])
      "11.1.2.3".toList = false ∧
    IsIPWhitelisted (new [] [] [OptionSpec.withCallbackIPWhitelist ["10.0.0.0/8".toList]])
      "10.1.2.3:9999".toList = true := by
  refine ⟨?_, isIPWhitelisted_iff c cand, isIPWhitelisted_parse_none c cand,
    by decide, by decide, by decide⟩
  intro h
  simp [IsIPWhitelisted, h]

/-- Witness for C5 at concrete inputs: an empty whitelist allows an arbitrary
candidate, and an unparseable candidate is denied by a non-empty whitelist. -/
theorem claim_C5_witness :
    IsIPWhitelisted (new [] [] []) "anything".toList = true ∧
    IsIPWhitelisted (new [] [] [OptionSpec.withCallbackIPWhitelist ["10.0.0.0/8".toList]])
      "not-an-ip".toList = false :=
  ⟨(claim_C5_is_ip_whitelisted (new [] [] []) "anything".toList).1 rfl,
   (claim_C5_is_ip_whitelisted _ "not-an-ip".toList).2.2.1 (by decide) (by decide)⟩

/-- C6: with a non-empty whitelist, an unparseable host yields
ErrInvalidIPAddress, a parseable non-whitelisted address yields
ErrIPNotWhitelisted, and the result is nil exactly when the whitelist is
empty or the address is whitelisted. -/
theorem claim_C6_verify_callback_ip (c : Client) (s : List Char) :
    (c.CallbackIPWhitelist ≠ [] → ParseIP (hostOf s) = none →
      VerifyCallbackIP c s = some CallbackIPErr.invalidIPAddress) ∧
    (c.CallbackIPWhitelist ≠ [] → (ParseIP (hostOf s)).isSome →
      IsIPWhitelisted c s = false →
      VerifyCallbackIP c s = some CallbackIPErr.ipNotWhitelisted) ∧
    (VerifyCallbackIP c s = none ↔
      (c.CallbackIPWhitelist = [] ∨ IsIPWhitelisted c s = true)) := by
  by_cases h : c.CallbackIPWhitelist = []
  · refine ⟨fun hne => absurd h hne, fun hne => absurd h hne, ?_⟩
    simp [VerifyCallbackIP, h]
  · have hlen : ¬(c.CallbackIPWhitelist.length = 0) :=
      fun hh => h (List.length_eq_zero.mp hh)
    refine ⟨fun _ hp => ?_, fun _ hp hw => ?_, ?_⟩
    · simp [VerifyCallbackIP, hlen, hp]
    · cases hps : ParseIP (hostOf s) with
      | none => rw [hps] at hp; simp at hp
      | some ip => simp [VerifyCallbackIP, hlen, hps, hw]
    · cases hps : ParseIP (hostOf s) with
      | none =>
        have hw := isIPWhitelisted_parse_none c s h hps
        simp [VerifyCallbackIP, hlen, hps, hw, h]
      | some ip =>
        by_cases hw : IsIPWhitelisted c s = true
        · simp [VerifyCallbackIP, hlen, hps, hw, h]
        · simp [VerifyCallbackIP, hlen, hps, hw, h]

/-- Witness for C6: on whitelist 10.0.0.0/8 the candidate not-an-ip yields the
invalid-address error and 11.1.2.3 yields the not-whitelisted error. -/
theorem claim_C6_witness :
    VerifyCallbackIP (new [] [] [OptionSpec.withCallbackIPWhitelist ["10.0.0.0/8".toList]])
      "not-an-ip".toList = some CallbackIPErr.invalidIPAddress ∧
    VerifyCallbackIP (new [] [] [OptionSpec.withCallbackIPWhitelist ["10.0.0.0/8".toList]])
      "11.1.2.3".toList = some CallbackIPErr.ipNotWhitelisted :=
  ⟨(claim_C6_verify_callback_ip _ "not-an-ip".toList).1 (by decide) (by decide),
   (claim_C6_verify_callback_ip _ "11.1.2.3".toList).2.1 (by decide) (by decide) (by decide)⟩

/-- C7: whitelist construction never fails and keeps exactly the parseable
entries: the parsed ranges are the entries parsing as CIDRs, the parsed
literals are the remaining entries parsing as IPs, and everything else is
silently dropped. -/
theorem claim_C7_whitelist_construction (c : Client) :
    (parseIPWhitelist c).parsedIPNets = c.CallbackIPWhitelist.filterMap parseCIDR ∧
    (parseIPWhitelist c).parsedIPs =
      c.CallbackIPWhitelist.filterMap
        (fun s => if (parseCIDR s).isSome then none else ParseIP s) ∧
    (parseIPWhitelist c).CallbackIPWhitelist = c.CallbackIPWhitelist := by
  have h := parseIPWhitelistLoop_go c.CallbackIPWhitelist ([], [])
  simp [parseIPWhitelist, parseIPWhitelistLoop, h]

/-- C9: a non-empty whitelist whose entries are all unparseable denies every
candidate: IsIPWhitelisted is false and VerifyCallbackIP errors, because the
emptiness check reads the raw string list, not the surviving parsed entries. -/
theorem claim_C9_all_unparseable_denies (entries : List (List Char))
    (cand : List Char) (hne : entries ≠ [])
    (hbad : ∀ e ∈ entries, parseCIDR e = none ∧ ParseIP e = none) :
    IsIPWhitelisted (new [] [] [OptionSpec.withCallbackIPWhitelist entries]) cand = false ∧
    VerifyCallbackIP (new [] [] [OptionSpec.withCallbackIPWhitelist entries]) cand ≠ none := by
  have hloop := parseIPWhitelistLoop_go entries ([], [])
  have hnets : entries.filterMap parseCIDR = [] := by
    rw [List.filterMap_eq_nil_iff]
    exact fun e he => (hbad e he).1
  have hips : entries.filterMap
      (fun s => if (parseCIDR s).isSome then none else ParseIP s) = [] := by
    rw [List.filterMap_eq_nil_iff]
    intro e he
    simp [(hbad e he).1, (hbad e he).2]
  have h1 : (new [] [] [OptionSpec.withCallbackIPWhitelist entries]).CallbackIPWhitelist =
      entries := by
    simp [new, applyOption, parseIPWhitelist]
  have h2 : (new [] [] [OptionSpec.withCallbackIPWhitelist entries]).parsedIPNets = [] := by
    simp [new, applyOption, parseIPWhitelist, parseIPWhitelistLoop, hloop, hnets]
  have h3 : (new [] [] [OptionSpec.withCallbackIPWhitelist entries]).parsedIPs = [] := by
    simp [new, applyOption, parseIPWhitelist, parseIPWhitelistLoop, hloop, hips]
  have hlen : ¬(entries.length = 0) := fun hh => hne (List.length_eq_zero.mp hh)
  have hW : IsIPWhitelisted (new [] [] [OptionSpec.withCallbackIPWhitelist entries])
      cand = false := by
    unfold IsIPWhitelisted
    rw [h1, if_neg hlen]
    cases hp : ParseIP (hostOf cand) with
    | none => rfl
    | some ip => rw [h2, h3]; simp
  refine ⟨hW, ?_⟩
  unfold VerifyCallbackIP
  rw [h1, if_neg hlen]
  cases hp : ParseIP (hostOf cand) with
  | none => simp
  | some ip => simp [hW]

/-- Witness for C9: the one-entry whitelist nope (unparseable) denies the
well-formed candidate 10.1.2.3. -/
theorem claim_C9_witness :
    IsIPWhitelisted (new [] [] [OptionSpec.withCallbackIPWhitelist ["nope".toList]])
      "10.1.2.3".toList = false ∧
    VerifyCallbackIP (new [] [] [OptionSpec.withCallbackIPWhitelist ["nope".toList]])
      "10.1.2.3".toList ≠ none :=
  claim_C9_all_unparseable_denies ["nope".toList] "10.1.2.3".toList
    (by decide) (by decide)

/-! ## Claim theorems for the retry-wait configuration (C8) -/

/-- C8 counterexample: WithRetryWait assigns both bounds without validation,
so New with WithRetryWait(5s, 1s) yields RetryWaitMin greater than
RetryWaitMax, violating the invariant as stated. -/
theorem claim_C8_counterexample :
    ¬((new "a".toList "s".toList
        [OptionSpec.withRetryWait (5 * 1000000000) (1 * 1000000000)]).RetryWaitMin ≤
      (new "a".toList "s".toList
        [OptionSpec.withRetryWait (5 * 1000000000) (1 * 1000000000)]).RetryWaitMax) := by
  decide

/-- C8 (amended): for every client produced by New with any sequence of
options in which every WithRetryWait call passes min at most max, the
invariant RetryWaitMin at most RetryWaitMax holds; the defaults 500ms and 2s
satisfy it, and only WithRetryWait touches these fields. -/
theorem claim_C8_retry_wait_invariant (authKey secretKey : List Char)
    (opts : List OptionSpec)
    (h : ∀ o ∈ opts, ∀ mn mx : Int, o = OptionSpec.withRetryWait mn mx → mn ≤ mx) :
    (new authKey secretKey opts).RetryWaitMin ≤
      (new authKey secretKey opts).RetryWaitMax := by
  unfold new
  have hgen : ∀ (l : List OptionSpec) (c : Client),
      (∀ o ∈ l, ∀ mn mx : Int, o = OptionSpec.withRetryWait mn mx → mn ≤ mx) →
      c.RetryWaitMin ≤ c.RetryWaitMax →
      (l.foldl applyOption c).RetryWaitMin ≤ (l.foldl applyOption c).RetryWaitMax := by
    intro l
    induction l with
    | nil => intro c _ hc; simpa using hc
    | cons o rest ih =>
      intro c hl hc
      rw [List.foldl_cons]
      apply ih
      · exact fun o2 ho2 mn mx he => hl o2 (List.mem_cons_of_mem _ ho2) mn mx he
      · cases o with
        | withBaseURL u => simpa [applyOption] using hc
        | withTimeout d =>
          simp only [applyOption]
          split <;> simpa using hc
        | withRetries n =>
          simp only [applyOption]
          split <;> simpa using hc
        | withDebug b => simpa [applyOption] using hc
        | withRetryWait mn mx =>
          have hmm := hl _ (List.mem_cons_self _ _) mn mx rfl
          simpa [applyOption] using hmm
        | withCallbackIPWhitelist ips =>
          simpa [applyOption, parseIPWhitelist] using hc
        | withDigest d => simpa [applyOption] using hc
  apply hgen opts (defaultClient authKey secretKey) h
  simp [defaultClient]

/-- Witness for the amended C8: WithRetryWait(1s, 5s) respects the invariant
and the constructed client satisfies it. -/
theorem claim_C8_witness :
    (new "a".toList "s".toList
      [OptionSpec.withRetryWait 1000000000 5000000000]).RetryWaitMin ≤
    (new "a".toList "s".toList
      [OptionSpec.withRetryWait 1000000000 5000000000]).RetryWaitMax :=
  claim_C8_retry_wait_invariant "a".toList "s".toList
    [OptionSpec.withRetryWait 1000000000 5000000000]
    (by
      intro o ho mn mx he
      simp only [List.mem_singleton] at ho
      subst ho
      cases he
      decide)

end GSPay
